import Mathlib

/-!
Shallow embedding of the portfolio-accounting engine of the Investment
repository (pms-backend): ledger replay into holdings and cash
(`holdingsCalculator`), time-weighted return and risk metrics
(`performanceCalculator`), and drift / rebalancing (`rebalancingService`).

JavaScript numbers are modelled as rationals (`ℚ`); dates as integer day
numbers (`ℤ`); nullable columns as `Option`; the Prisma queries
(`findMany` filtered by portfolio and date, ordered by `transactionDate`)
as an explicit `filter` plus stable `insertionSort` over a transaction
list; the price oracle as a function argument.  `console.warn` is
modelled by collecting the warned symbol in the replay state.
-/

namespace Investment

/-- The Prisma `TransactionType` enum. -/
inductive TransactionType where
  | BUY | SELL | DIVIDEND | INTEREST | CASH_DEPOSIT | CASH_WITHDRAWAL | FEES
  deriving DecidableEq, Repr

/-- A row of the Prisma `Transaction` table, with its nullable columns as
`Option`. -/
structure Transaction where
  type : TransactionType
  symbol : Option String
  quantity : Option ℚ
  price : Option ℚ
  amount : Option ℚ
  assetType : String
  transactionDate : ℤ
  deriving DecidableEq, Repr

/-- The `Holding` interface of `holdingsCalculator.ts`. -/
structure Holding where
  symbol : String
  assetType : String
  quantity : ℚ
  averageCost : ℚ
  totalCost : ℚ
  deriving DecidableEq, Repr

/-- The `PortfolioHoldings` interface: assets plus final cash balance. -/
structure PortfolioHoldings where
  assets : List Holding
  cashBalance : ℚ
  deriving DecidableEq, Repr

/-- State threaded through the replay loop of `calculateHoldings`: the
`holdings` object (an insertion-ordered map keyed by symbol), the running
`cashBalance`, and the symbols passed to `console.warn`. -/
structure ReplayState where
  holdings : List Holding
  cashBalance : ℚ
  warnings : List String
  deriving DecidableEq, Repr

/-- JavaScript truthiness of the nullable `symbol` column: `null` and the
empty string are falsy. -/
def jsTruthy : Option String → Bool
  | none => false
  | some s => s != ""

/-- Lookup `holdings[symbol]` in the insertion-ordered map. -/
def findHolding (hs : List Holding) (sym : String) : Option Holding :=
  hs.find? (fun h => h.symbol == sym)

/-- In-place update of `holdings[symbol]`, keeping insertion order. -/
def updateHolding (hs : List Holding) (sym : String) (h : Holding) : List Holding :=
  hs.map (fun g => if g.symbol == sym then h else g)

/-- `calculateNewAverageCost` of `holdingsCalculator.ts`: weighted-average
cost after a BUY, guarded against a nonpositive total quantity. -/
def calculateNewAverageCost (currentQuantity currentAverageCost buyQuantity buyPrice : ℚ) : ℚ :=
  let currentTotalCost := currentQuantity * currentAverageCost
  let newTotalCost := currentTotalCost + buyQuantity * buyPrice
  let newTotalQuantity := currentQuantity + buyQuantity
  if newTotalQuantity > 0 then newTotalCost / newTotalQuantity else 0

/-- The first `switch (type)` of the replay loop: the cash effect.
BUY and SELL move cash by `quantity * price` when both fields are
non-null; every other kind adds its `amount` when non-null. -/
def applyCashEffect (cash : ℚ) (t : Transaction) : ℚ :=
  match t.type with
  | .BUY =>
      match t.quantity, t.price with
      | some q, some p => cash - q * p
      | _, _ => cash
  | .SELL =>
      match t.quantity, t.price with
      | some q, some p => cash + q * p
      | _, _ => cash
  | _ =>
      match t.amount with
      | some a => cash + a
      | none => cash

/-- The second `switch (type)` of the replay loop: the holding effect.
BUY updates or creates the holding when `symbol` is truthy and
`quantity`/`price` are non-null; SELL reduces the quantity of an existing
holding, and otherwise (unheld symbol or null quantity, with a truthy
symbol) warns without touching the holdings; every other kind does
nothing. -/
def applyHoldingEffect (st : ReplayState) (t : Transaction) : ReplayState :=
  match t.type with
  | .BUY =>
      if jsTruthy t.symbol then
        let sym := t.symbol.getD ""
        match t.quantity, t.price with
        | some q, some p =>
            match findHolding st.holdings sym with
            | some cur =>
                let newAverageCost := calculateNewAverageCost cur.quantity cur.averageCost q p
                let updated : Holding :=
                  { cur with
                    quantity := cur.quantity + q
                    averageCost := newAverageCost
                    totalCost := (cur.quantity + q) * newAverageCost }
                { st with holdings := updateHolding st.holdings sym updated }
            | none =>
                { st with
                  holdings := st.holdings ++
                    [{ symbol := sym, assetType := t.assetType, quantity := q,
                       averageCost := p, totalCost := q * p }] }
        | _, _ => st
      else st
  | .SELL =>
      if jsTruthy t.symbol then
        let sym := t.symbol.getD ""
        match t.quantity, findHolding st.holdings sym with
        | some q, some cur =>
            let updated : Holding :=
              { cur with
                quantity := cur.quantity - q
                totalCost := (cur.quantity - q) * cur.averageCost }
            { st with holdings := updateHolding st.holdings sym updated }
        | _, _ => { st with warnings := st.warnings ++ [sym] }
      else st
  | _ => st

/-- One iteration of the replay loop: cash effect, then holding effect. -/
def replayStep (st : ReplayState) (t : Transaction) : ReplayState :=
  applyHoldingEffect { st with cashBalance := applyCashEffect st.cashBalance t } t

/-- The replay fold of `calculateHoldings`, starting from empty holdings
and zero cash. -/
def replayTransactions (txs : List Transaction) : ReplayState :=
  txs.foldl replayStep { holdings := [], cashBalance := 0, warnings := [] }

/-- The Prisma `where` clause on `transactionDate`: everything when no
`asOfDate` is given, otherwise `transactionDate ≤ asOfDate`. -/
def inDateRange (asOfDate : Option ℤ) (t : Transaction) : Bool :=
  match asOfDate with
  | some d => t.transactionDate ≤ d
  | none => true

/-- Chronological ordering used by `orderBy: transactionDate asc`. -/
def txDateLe (a b : Transaction) : Prop :=
  a.transactionDate ≤ b.transactionDate

instance : DecidableRel txDateLe := fun a b => Int.decLe a.transactionDate b.transactionDate

/-- `calculateHoldings(portfolioId, asOfDate?)` of `holdingsCalculator`
(the `PortfolioHoldings` variant): replay the date-filtered,
chronologically ordered transactions, then drop holdings with quantity at
or below the `0.000001` epsilon. -/
def calculateHoldings (txs : List Transaction) (asOfDate : Option ℤ) : PortfolioHoldings :=
  let ordered := List.insertionSort txDateLe (txs.filter (inDateRange asOfDate))
  let st := replayTransactions ordered
  { assets := st.holdings.filter (fun h => h.quantity > 1/1000000)
    cashBalance := st.cashBalance }

/-- `getPortfolioValueOnDate` of `performanceCalculator.ts`: cash balance
plus the sum over assets of quantity times the oracle price, on the
holdings replayed up to the given date.  The price oracle
`getPrice(symbol, assetType, date)` is a function argument. -/
def getPortfolioValueOnDate (txs : List Transaction)
    (price : String → String → ℤ → ℚ) (date : ℤ) : ℚ :=
  let holdings := calculateHoldings txs (some date)
  holdings.assets.foldl
    (fun totalValue asset => totalValue + asset.quantity * price asset.symbol asset.assetType date)
    holdings.cashBalance

/-- The `type: in [...]` clause of the chain-linked `calculateTWR`: the
five external cash-flow kinds. -/
def isExternalCashFlowType : TransactionType → Bool
  | .CASH_DEPOSIT => true
  | .CASH_WITHDRAWAL => true
  | .DIVIDEND => true
  | .INTEREST => true
  | .FEES => true
  | _ => false

/-- The `where` clause of the chain-linked `calculateTWR`: an external
cash flow dated within `[startDate, endDate]`. -/
def isExternalFlowIn (startDate endDate : ℤ) (t : Transaction) : Bool :=
  decide (startDate ≤ t.transactionDate) && decide (t.transactionDate ≤ endDate)
    && isExternalCashFlowType t.type

/-- One iteration of the sub-period loop of the chain-linked
`calculateTWR`: value at the close of the day before `periodStart`, plus
the cash flows dated exactly `periodStart`, gives the adjusted starting
value; a zero adjusted start is skipped, otherwise the factor
`mvEnd / mvStartAdjusted` is chained in. -/
def twrStep (txs : List Transaction) (price : String → String → ℤ → ℚ)
    (externalCashFlows : List Transaction) (factor : ℚ) (pr : ℤ × ℤ) : ℚ :=
  let mvBefore := getPortfolioValueOnDate txs price (pr.1 - 1)
  let cashFlowsOnStartDate :=
    ((externalCashFlows.filter (fun cf => cf.transactionDate = pr.1)).map
      (fun cf => cf.amount.getD 0)).sum
  let mvStartAdjusted := mvBefore + cashFlowsOnStartDate
  if mvStartAdjusted = 0 then factor
  else factor * (getPortfolioValueOnDate txs price pr.2 / mvStartAdjusted)

/-- The chain-linked `calculateTWR` of `performanceCalculator`
(the sub-period version): collect the external cash flows in range, build
the deduplicated sorted boundary dates, chain-link the sub-period return
factors, and return `(factor − 1) * 100`.  Over `ℚ` the final
`isFinite` guard of the source is always satisfied; the companion
`calculateTWRjs` models it explicitly. -/
def calculateTWR (txs : List Transaction) (price : String → String → ℤ → ℚ)
    (startDate endDate : ℤ) : ℚ :=
  let externalCashFlows :=
    List.insertionSort txDateLe (txs.filter (isExternalFlowIn startDate endDate))
  let boundaryDates :=
    ((startDate :: externalCashFlows.map (fun t => t.transactionDate)) ++ [endDate]).dedup
  let sortedDates := List.insertionSort (fun a b => a ≤ b) boundaryDates
  if sortedDates.length < 2 then 0
  else
    let pairs := sortedDates.zip sortedDates.tail
    let cumulativeReturnFactor := pairs.foldl (twrStep txs price externalCashFlows) 1
    (cumulativeReturnFactor - 1) * 100

/-- The simplified `calculateTWR` of
`pms-backend/src/services/performanceCalculator.ts`: whole-period return
with the net deposit/withdrawal flow in `(startDate, endDate]` subtracted,
returning 0 when the starting value is 0. -/
def calculateTWRSimple (txs : List Transaction) (price : String → String → ℤ → ℚ)
    (startDate endDate : ℤ) : ℚ :=
  let startValue := getPortfolioValueOnDate txs price startDate
  let endValue := getPortfolioValueOnDate txs price endDate
  let flows := txs.filter (fun t =>
    decide (startDate < t.transactionDate) && decide (t.transactionDate ≤ endDate)
      && (t.type == .CASH_DEPOSIT || t.type == .CASH_WITHDRAWAL))
  let netCashFlow := (flows.map (fun t => t.amount.getD 0)).sum
  if startValue = 0 then 0
  else (endValue - netCashFlow - startValue) / startValue * 100

/-- `getPeriodicReturns`: the daily return series over
`[startDate, endDate]`, skipping days whose previous-day value is 0. -/
def getPeriodicReturns (txs : List Transaction) (price : String → String → ℤ → ℚ)
    (startDate endDate : ℤ) : List ℚ :=
  (List.range (endDate + 1 - startDate).toNat).foldl
    (fun dailyReturns i =>
      let d := startDate + (i : ℤ)
      let valueYesterday := getPortfolioValueOnDate txs price (d - 1)
      if valueYesterday = 0 then dailyReturns
      else dailyReturns ++ [(getPortfolioValueOnDate txs price d - valueYesterday) / valueYesterday])
    []

/-- The `peak *= (1 + r)` map of `calculateRiskMetrics`: the running
cumulative-return index.  It also leaves the mutated `peak` at the total
product, which is the peak the subsequent loop starts from. -/
def cumulativeReturnsOf (dailyReturns : List ℚ) : List ℚ :=
  (dailyReturns.foldl
    (fun acc r => let p := acc.1 * (1 + r); (p, acc.2 ++ [p]))
    ((1 : ℚ), ([] : List ℚ))).2

/-- One iteration of the drawdown loop of `calculateRiskMetrics` on the
state `(peak, maxDrawdown)`: drawdown against the current peak, keep the
most negative drawdown, then raise the peak. -/
def drawdownStep (state : ℚ × ℚ) (cumulativeReturn : ℚ) : ℚ × ℚ :=
  let drawdown := (cumulativeReturn - state.1) / state.1
  let newMax := if drawdown < state.2 then drawdown else state.2
  let newPeak := if cumulativeReturn > state.1 then cumulativeReturn else state.1
  (newPeak, newMax)

/-- The `maxDrawdown` component of `calculateRiskMetrics`: 0 for an empty
return series, otherwise the drawdown loop over the cumulative-return
index, reported as a percentage.  (Because the source's `map` mutates
`peak`, the loop starts with `peak` already equal to the total product of
`1 + r`.)  The volatility and Sharpe components involve `sqrt`/`pow` and
are not needed by the claims about `maxDrawdown`. -/
def calculateMaxDrawdown (dailyReturns : List ℚ) : ℚ :=
  if dailyReturns.isEmpty then 0
  else
    let peakAfterMap := dailyReturns.foldl (fun p r => p * (1 + r)) 1
    let finalState := (cumulativeReturnsOf dailyReturns).foldl drawdownStep (peakAfterMap, 0)
    finalState.2 * 100

/-- A `ModelAsset` row: a symbol and its `targetPercentage`. -/
structure ModelAsset where
  symbol : String
  targetPercentage : ℚ
  deriving DecidableEq, Repr

/-- A model portfolio: its list of target assets. -/
structure ModelPortfolio where
  assets : List ModelAsset
  deriving DecidableEq, Repr

/-- A portfolio row with its (nullable) assigned model, as loaded by
`prisma.portfolio.findUnique({ include: { modelPortfolio ... } })`. -/
structure Portfolio where
  modelPortfolio : Option ModelPortfolio
  deriving DecidableEq, Repr

/-- The `AssetAllocation` interface of `rebalancingService.ts`. -/
structure AssetAllocation where
  symbol : String
  currentValue : ℚ
  currentWeight : ℚ
  targetWeight : ℚ
  drift : ℚ
  deriving DecidableEq, Repr

/-- A proposed rebalancing trade: symbol, `"BUY"` or `"SELL"`, and the
absolute trade value. -/
structure RebalancingTrade where
  symbol : String
  action : String
  tradeValue : ℚ
  deriving DecidableEq, Repr

/-- The `RebalancingProposal` interface of `rebalancingService.ts`. -/
structure RebalancingProposal where
  portfolioId : ℤ
  totalMarketValue : ℚ
  driftAnalysis : List AssetAllocation
  rebalancingTrades : List RebalancingTrade
  deriving DecidableEq, Repr

/-- `calculatePortfolioMarketValue`: total market value (cash plus priced
assets, valued today) and the per-symbol `assetValues` map. -/
def calculatePortfolioMarketValue (txs : List Transaction)
    (price : String → String → ℤ → ℚ) (today : ℤ) : ℚ × List (String × ℚ) :=
  let holdings := calculateHoldings txs none
  holdings.assets.foldl
    (fun acc asset =>
      let value := asset.quantity * price asset.symbol asset.assetType today
      (acc.1 + value, acc.2 ++ [(asset.symbol, value)]))
    (holdings.cashBalance, [])

/-- `calculateDrift` of `rebalancingService.ts`.  A missing portfolio and
a portfolio without an assigned model both throw the same
`Portfolio or its assigned model not found.` error; otherwise each model
asset produces a drift entry (`assetValues[symbol] || 0`, weight 0 when
the total market value is not positive). -/
def calculateDrift (portfolio : Option Portfolio) (txs : List Transaction)
    (price : String → String → ℤ → ℚ) (today : ℤ) :
    Except String (List AssetAllocation) :=
  match portfolio with
  | none => .error "Portfolio or its assigned model not found."
  | some p =>
    match p.modelPortfolio with
    | none => .error "Portfolio or its assigned model not found."
    | some model =>
      let mv := calculatePortfolioMarketValue txs price today
      .ok (model.assets.map (fun modelAsset =>
        let currentValue := ((mv.2.find? (fun av => av.1 == modelAsset.symbol)).map
          (fun av => av.2)).getD 0
        let currentWeight := if mv.1 > 0 then currentValue / mv.1 else 0
        { symbol := modelAsset.symbol
          currentValue := currentValue
          currentWeight := currentWeight
          targetWeight := modelAsset.targetPercentage
          drift := currentWeight - modelAsset.targetPercentage }))

/-- `generateRebalancingProposal` of `rebalancingService.ts`: one trade
per drift entry, `tradeValue = totalMarketValue * targetWeight −
currentValue`, BUY when positive, magnitude `|tradeValue|`, dropping
trades at or below the `0.01` negligibility threshold. -/
def generateRebalancingProposal (portfolioId : ℤ) (portfolio : Option Portfolio)
    (txs : List Transaction) (price : String → String → ℤ → ℚ) (today : ℤ) :
    Except String RebalancingProposal :=
  match calculateDrift portfolio txs price today with
  | .error e => .error e
  | .ok driftAnalysis =>
    let totalMarketValue := (calculatePortfolioMarketValue txs price today).1
    let rebalancingTrades :=
      (driftAnalysis.map (fun asset =>
        let tradeValue := totalMarketValue * asset.targetWeight - asset.currentValue
        { symbol := asset.symbol
          action := if tradeValue > 0 then "BUY" else "SELL"
          tradeValue := |tradeValue| : RebalancingTrade })).filter
        (fun trade => trade.tradeValue > 1/100)
    .ok { portfolioId := portfolioId
          totalMarketValue := totalMarketValue
          driftAnalysis := driftAnalysis
          rebalancingTrades := rebalancingTrades }

/-! ### IEEE-style value model for the `isFinite` guard of `calculateTWR`

`JsNum` refines the plain `ℚ` model with the JavaScript special values
`NaN` and `±Infinity`, with division by zero and arithmetic on special
values following JavaScript semantics (signed zero and overflow of
finite-by-finite operations are not modelled: rationals are unbounded).
The ledger fields themselves are database rationals; the price oracle may
return any `JsNum`. -/

/-- A JavaScript number: a finite rational, `NaN`, or `±Infinity`
(`inf true` is `+Infinity`). -/
inductive JsNum where
  | num : ℚ → JsNum
  | nan : JsNum
  | inf : Bool → JsNum
  deriving DecidableEq, Repr

/-- JavaScript `isFinite`. -/
def JsNum.isFinite : JsNum → Bool
  | .num _ => true
  | _ => false

/-- JavaScript addition on the extended values. -/
def JsNum.add : JsNum → JsNum → JsNum
  | .nan, _ => .nan
  | _, .nan => .nan
  | .num a, .num b => .num (a + b)
  | .inf s, .num _ => .inf s
  | .num _, .inf t => .inf t
  | .inf s, .inf t => if s = t then .inf s else .nan

/-- JavaScript negation. -/
def JsNum.neg : JsNum → JsNum
  | .num a => .num (-a)
  | .nan => .nan
  | .inf s => .inf (!s)

/-- JavaScript subtraction. -/
def JsNum.sub (x y : JsNum) : JsNum := x.add y.neg

/-- JavaScript multiplication; `0 * Infinity` is `NaN`. -/
def JsNum.mul : JsNum → JsNum → JsNum
  | .nan, _ => .nan
  | _, .nan => .nan
  | .num a, .num b => .num (a * b)
  | .inf s, .num b => if b = 0 then .nan else if 0 < b then .inf s else .inf (!s)
  | .num a, .inf t => if a = 0 then .nan else if 0 < a then .inf t else .inf (!t)
  | .inf s, .inf t => .inf (s == t)

/-- JavaScript division; `0 / 0` is `NaN`, a nonzero finite value divided
by zero is `±Infinity`, and a finite value divided by `±Infinity` is 0. -/
def JsNum.div : JsNum → JsNum → JsNum
  | .nan, _ => .nan
  | _, .nan => .nan
  | .num a, .num b =>
      if b = 0 then (if a = 0 then .nan else .inf (decide (0 < a))) else .num (a / b)
  | .inf s, .num b => if 0 ≤ b then .inf s else .inf (!s)
  | .num _, .inf _ => .num 0
  | .inf _, .inf _ => .nan

/-- `getPortfolioValueOnDate` with the price oracle returning arbitrary
JavaScript numbers. -/
def getPortfolioValueOnDateJs (txs : List Transaction)
    (price : String → String → ℤ → JsNum) (date : ℤ) : JsNum :=
  let holdings := calculateHoldings txs (some date)
  holdings.assets.foldl
    (fun totalValue asset =>
      totalValue.add ((JsNum.num asset.quantity).mul (price asset.symbol asset.assetType date)))
    (JsNum.num holdings.cashBalance)

/-- The adjusted starting value of a sub-period in the JavaScript-valued
model: previous-day market value plus the cash flows dated exactly
`periodStart` (ledger amounts are database rationals). -/
def mvStartAdjustedJs (txs : List Transaction) (price : String → String → ℤ → JsNum)
    (externalCashFlows : List Transaction) (periodStart : ℤ) : JsNum :=
  (getPortfolioValueOnDateJs txs price (periodStart - 1)).add
    (JsNum.num (((externalCashFlows.filter (fun cf => cf.transactionDate = periodStart)).map
      (fun cf => cf.amount.getD 0)).sum))

/-- One iteration of the sub-period loop of `calculateTWR` in the
JavaScript-valued model: a sub-period whose adjusted starting value is
`=== 0` is skipped, leaving the chain factor unchanged. -/
def twrStepJs (txs : List Transaction) (price : String → String → ℤ → JsNum)
    (externalCashFlows : List Transaction) (factor : JsNum) (pr : ℤ × ℤ) : JsNum :=
  let mvStartAdjusted := mvStartAdjustedJs txs price externalCashFlows pr.1
  if mvStartAdjusted = JsNum.num 0 then factor
  else factor.mul ((getPortfolioValueOnDateJs txs price pr.2).div mvStartAdjusted)

/-- The chain-linked `calculateTWR` in the JavaScript-valued model,
including the final `isFinite(twr) ? twr : 0` guard of the source. -/
def calculateTWRjs (txs : List Transaction) (price : String → String → ℤ → JsNum)
    (startDate endDate : ℤ) : JsNum :=
  let externalCashFlows :=
    List.insertionSort txDateLe (txs.filter (isExternalFlowIn startDate endDate))
  let boundaryDates :=
    ((startDate :: externalCashFlows.map (fun t => t.transactionDate)) ++ [endDate]).dedup
  let sortedDates := List.insertionSort (fun a b => a ≤ b) boundaryDates
  if sortedDates.length < 2 then JsNum.num 0
  else
    let pairs := sortedDates.zip sortedDates.tail
    let cumulativeReturnFactor :=
      pairs.foldl (twrStepJs txs price externalCashFlows) (JsNum.num 1)
    let twr := (cumulativeReturnFactor.sub (JsNum.num 1)).mul (JsNum.num 100)
    if twr.isFinite then twr else JsNum.num 0

/-! ### Per-transaction cash effect and conservation -/

/-- The net cash effect of a single replayed transaction, as the replay
loop actually computes it: `−quantity·price` for BUY and
`+quantity·price` for SELL when both fields are non-null (0 otherwise),
and `amount` (0 when null) for every other kind. -/
def cashEffect (t : Transaction) : ℚ :=
  match t.type with
  | .BUY =>
      match t.quantity, t.price with
      | some q, some p => -(q * p)
      | _, _ => 0
  | .SELL =>
      match t.quantity, t.price with
      | some q, some p => q * p
      | _, _ => 0
  | _ => t.amount.getD 0

/-- The comparison quantity taken from the spec's words: the sum of the
`cashAmount` (`amount`) fields of a transaction list, which the
cash-conservation sentence asserts `cashBalance` equals. -/
def sumCashAmounts (txs : List Transaction) : ℚ :=
  (txs.map (fun t => t.amount.getD 0)).sum

/-! ### Concrete scenario data used by witnesses and counterexamples -/

/-- The single BUY transaction refuting the claim that `cashBalance`
equals the sum of `amount` fields: its `amount` (−5) disagrees with
`−quantity·price` (−2), and replay uses the latter. -/
def buyAmountMismatch : Transaction :=
  { type := .BUY, symbol := some "A", quantity := some 1, price := some 2,
    amount := some (-5), assetType := "STOCK", transactionDate := 0 }

/-- Helper constructor for a SELL row. -/
def mkSell (sym : String) (at_ : String) (q p a : Option ℚ) (d : ℤ) : Transaction :=
  { type := .SELL, symbol := some sym, quantity := q, price := p, amount := a,
    assetType := at_, transactionDate := d }

/-- A constant price oracle, used for concrete scenarios. -/
def flatPrice (r : ℚ) : String → String → ℤ → ℚ := fun _ _ _ => r

/-- Scenario data: a 100 cash deposit and a purchase of one unit of `"A"`
at 100, both on day 0; with a flat price of 100, the portfolio exactly
matches a model that targets 100% `"A"`. -/
def depositOn0 : Transaction :=
  { type := .CASH_DEPOSIT, symbol := none, quantity := none, price := none,
    amount := some 100, assetType := "CASH", transactionDate := 0 }

def buyAOn0 : Transaction :=
  { type := .BUY, symbol := some "A", quantity := some 1, price := some 100,
    amount := some (-100), assetType := "STOCK", transactionDate := 0 }

def matchedTxs : List Transaction := [depositOn0, buyAOn0]

def matchedPortfolio : Portfolio :=
  { modelPortfolio := some { assets := [{ symbol := "A", targetPercentage := 1 }] } }

/-- The drift analysis of the matched scenario, as the code computes it. -/
def matchedEntries : List AssetAllocation :=
  [{ symbol := "A", currentValue := 100, currentWeight := 1, targetWeight := 1, drift := 0 }]

/-- Helper constructor for a BUY row with non-null fields, `amount` set to
`−quantity·price` as the transaction route does. -/
def mkBuy (sym at_ : String) (q p : ℚ) (d : ℤ) : Transaction :=
  { type := .BUY, symbol := some sym, quantity := some q, price := some p,
    amount := some (-(q * p)), assetType := at_, transactionDate := d }

/-- The concrete scenario refuting the `V(startDate)` claim: 100 cash
deposited on day 0, one unit of `"A"` bought at 10 on day 2, flat oracle
price 20.  Then `V(1) = 100` but `V(2) = 110`, and the TWR over `[2, 3]`
is computed against `V(1)`. -/
def exPrice : String → String → ℤ → ℚ := fun _ _ _ => 20

def exDeposit : Transaction :=
  { type := .CASH_DEPOSIT, symbol := none, quantity := none, price := none,
    amount := some 100, assetType := "CASH", transactionDate := 0 }

def exBuy : Transaction :=
  { type := .BUY, symbol := some "A", quantity := some 1, price := some 10,
    amount := some (-10), assetType := "STOCK", transactionDate := 2 }

def exTxs : List Transaction := [exDeposit, exBuy]

/-- A trivial JavaScript-valued price oracle for the witness. -/
def flatPriceJs : String → String → ℤ → JsNum := fun _ _ _ => JsNum.num 0

lemma applyHoldingEffect_cashBalance (st : ReplayState) (t : Transaction) :
    (applyHoldingEffect st t).cashBalance = st.cashBalance := by
  rcases t with ⟨ty, sym, q, p, a, at_, d⟩
  cases ty <;> simp only [applyHoldingEffect] <;> (repeat' split) <;> rfl

lemma applyHoldingEffect_warnings_buy (st : ReplayState) (t : Transaction)
    (h : t.type = .BUY) : (applyHoldingEffect st t).warnings = st.warnings := by
  rcases t with ⟨ty, sym, q, p, a, at_, d⟩
  cases h
  simp only [applyHoldingEffect]
  (repeat' split) <;> rfl

lemma replayStep_cashBalance (st : ReplayState) (t : Transaction) :
    (replayStep st t).cashBalance = st.cashBalance + cashEffect t := by
  unfold replayStep
  rw [applyHoldingEffect_cashBalance]
  rcases t with ⟨ty, sym, q, p, a, at_, d⟩
  cases ty <;> simp only [applyCashEffect, cashEffect] <;> (repeat' split) <;>
    (try simp only [Option.getD_some, Option.getD_none]) <;> ring

lemma foldl_replayStep_cashBalance (txs : List Transaction) (st : ReplayState) :
    (txs.foldl replayStep st).cashBalance = st.cashBalance + (txs.map cashEffect).sum := by
  induction txs generalizing st with
  | nil => simp
  | cons t ts ih =>
      rw [List.foldl_cons, ih, replayStep_cashBalance, List.map_cons, List.sum_cons]
      ring

/-- C2 (amended): after replay, `cashBalance` equals the sum of the
per-transaction cash effects the loop computes — `∓quantity·price` for
BUY/SELL, `amount` for every other kind — over the date-filtered
transactions; no holding-side computation alters cash.  (It does NOT in
general equal the sum of the `amount` fields: BUY and SELL ignore
`amount`.) -/
theorem cash_conservation_effects (txs : List Transaction) (asOfDate : Option ℤ) :
    (calculateHoldings txs asOfDate).cashBalance =
      ((txs.filter (inDateRange asOfDate)).map cashEffect).sum := by
  unfold calculateHoldings replayTransactions
  dsimp only
  rw [foldl_replayStep_cashBalance]
  rw [zero_add]
  exact List.Perm.sum_eq (List.Perm.map cashEffect
    (List.perm_insertionSort txDateLe (txs.filter (inDateRange asOfDate))))

/-- C2 counterexample: for the transaction list `[buyAmountMismatch]`,
the replayed `cashBalance` is −2 (−quantity·price) while the sum of the
`amount` fields is −5; the claimed equality fails. -/
theorem cash_not_sum_of_amounts :
    (calculateHoldings [buyAmountMismatch] none).cashBalance ≠
      sumCashAmounts [buyAmountMismatch] := by
  norm_num [calculateHoldings, replayTransactions, replayStep, applyCashEffect,
    applyHoldingEffect, jsTruthy, findHolding, sumCashAmounts, inDateRange, txDateLe,
    buyAmountMismatch, List.insertionSort, List.orderedInsert,
    (by decide : ("A":String) ≠ "")]

/-! ### Skipped BUYs with null fields (C9) and unheld SELLs (C4) -/

/-- C9: a BUY whose `quantity` or `price` is null is skipped entirely by
the replay step: cash, holdings and warnings are all unchanged, and the
replay is total (it cannot fail). -/
theorem buy_null_fields_skipped (st : ReplayState) (sym : Option String)
    (q p a : Option ℚ) (at_ : String) (d : ℤ) (h : q = none ∨ p = none) :
    replayStep st
      { type := .BUY, symbol := sym, quantity := q, price := p, amount := a,
        assetType := at_, transactionDate := d } = st := by
  have hcash : applyCashEffect st.cashBalance
      { type := .BUY, symbol := sym, quantity := q, price := p, amount := a,
        assetType := at_, transactionDate := d } = st.cashBalance := by
    unfold applyCashEffect
    rcases h with h | h <;> subst h
    · rfl
    · cases q <;> rfl
  unfold replayStep
  rw [hcash]
  unfold applyHoldingEffect
  dsimp only
  rcases h with h | h <;> subst h
  · cases jsTruthy sym <;> simp
  · cases jsTruthy sym <;> cases q <;> simp

/-- C9 witness: a concrete BUY with a null price leaves the empty state
untouched. -/
theorem buy_null_fields_skipped_witness :
    replayStep { holdings := [], cashBalance := 0, warnings := [] }
      { type := .BUY, symbol := some "A", quantity := some 3, price := none,
        amount := some (-30), assetType := "STOCK", transactionDate := 0 } =
      { holdings := [], cashBalance := 0, warnings := [] } :=
  buy_null_fields_skipped _ _ _ _ _ _ _ (Or.inr rfl)

/-- C4 (amended): a SELL whose symbol has no existing holding does not
fail: it emits the data-integrity warning and leaves the holdings map
untouched — no negative-quantity holding is created; only the cash
balance still moves by `quantity·price`. -/
theorem sell_unheld_warns_no_mutation (st : ReplayState) (sym at_ : String)
    (q p : ℚ) (a : Option ℚ) (d : ℤ) (hsym : sym ≠ "")
    (hnone : findHolding st.holdings sym = none) :
    replayStep st (mkSell sym at_ (some q) (some p) a d) =
      { holdings := st.holdings, cashBalance := st.cashBalance + q * p,
        warnings := st.warnings ++ [sym] } := by
  unfold replayStep applyCashEffect applyHoldingEffect mkSell
  dsimp only
  have ht : jsTruthy (some sym) = true := by
    simp [jsTruthy, hsym]
  rw [ht]
  dsimp only [Option.getD]
  rw [hnone]
  rfl

/-- C4 witness: selling 5 units of the unheld symbol `"A"` at price 10
from the empty state warns, leaves no holding, and adds 50 cash. -/
theorem sell_unheld_warns_no_mutation_witness :
    replayStep { holdings := [], cashBalance := 0, warnings := [] }
      (mkSell "A" "STOCK" (some 5) (some 10) none 0) =
      { holdings := [], cashBalance := 0 + 5 * 10, warnings := [] ++ ["A"] } :=
  sell_unheld_warns_no_mutation _ _ _ _ _ _ _ (by decide) rfl

/-- C4 counterexample: replaying a single SELL of the unheld symbol `"A"`
leaves NO holding for `"A"` at all (in particular no negative-quantity
holding), contrary to the claim that the sell drives the quantity
negative; the warning is emitted instead. -/
theorem sell_unheld_no_negative_holding :
    findHolding (replayTransactions [mkSell "A" "STOCK" (some 5) (some 10) none 0]).holdings
        "A" = none ∧
      (replayTransactions [mkSell "A" "STOCK" (some 5) (some 10) none 0]).warnings = ["A"] := by
  constructor <;> rfl

/-! ### Maximum drawdown is never positive (C10) -/

lemma foldl_drawdownStep_nonpos (cs : List ℚ) (pk m : ℚ) (hm : m ≤ 0) :
    (cs.foldl drawdownStep (pk, m)).2 ≤ 0 := by
  induction cs generalizing pk m with
  | nil => simpa using hm
  | cons c cs ih =>
      rw [List.foldl_cons]
      have h2 : (drawdownStep (pk, m) c).2 ≤ 0 := by
        unfold drawdownStep
        dsimp only
        split
        · exact le_trans (le_of_lt (by assumption)) hm
        · exact hm
      simpa using ih (drawdownStep (pk, m) c).1 (drawdownStep (pk, m) c).2 h2

/-- C10: for every input, the `maxDrawdown` component of
`calculateRiskMetrics` is at most 0: it starts at 0 and is only replaced
by a strictly more negative drawdown, and the final `* 100` preserves the
sign. -/
theorem maxDrawdown_nonpositive (txs : List Transaction)
    (price : String → String → ℤ → ℚ) (startDate endDate : ℤ) :
    calculateMaxDrawdown (getPeriodicReturns txs price startDate endDate) ≤ 0 := by
  unfold calculateMaxDrawdown
  split
  · exact le_refl 0
  · dsimp only
    have h := foldl_drawdownStep_nonpos
      (cumulativeReturnsOf (getPeriodicReturns txs price startDate endDate))
      ((getPeriodicReturns txs price startDate endDate).foldl (fun p r => p * (1 + r)) 1)
      0 le_rfl
    nlinarith [h]

/-! ### Drift requires a model, but the condition is not distinct (C6) -/

/-- C6 (amended): requesting drift for a portfolio without an assigned
model does fail — but with the very same
`Portfolio or its assigned model not found.` error that a missing
portfolio produces; the source raises one combined condition, not a
`NotConfigured` condition distinct from `NotFound`. -/
theorem drift_requires_model_error (p : Portfolio) (txs : List Transaction)
    (price : String → String → ℤ → ℚ) (today : ℤ)
    (hp : p.modelPortfolio = none) :
    calculateDrift (some p) txs price today =
        Except.error "Portfolio or its assigned model not found." ∧
      calculateDrift none txs price today =
        Except.error "Portfolio or its assigned model not found." := by
  constructor
  · simp only [calculateDrift, hp]
  · rfl

/-- C6 witness: the concrete model-less portfolio fails with the combined
error, identical to the missing-portfolio error. -/
theorem drift_requires_model_error_witness :
    calculateDrift (some { modelPortfolio := none }) [] (flatPrice 0) 0 =
        Except.error "Portfolio or its assigned model not found." ∧
      calculateDrift none [] (flatPrice 0) 0 =
        Except.error "Portfolio or its assigned model not found." :=
  drift_requires_model_error { modelPortfolio := none } [] (flatPrice 0) 0 rfl

/-- C6 counterexample: the condition raised for a portfolio that exists
without a model is NOT distinct from the one raised for a missing
portfolio — the two calls produce the identical result. -/
theorem drift_error_not_distinct :
    calculateDrift (some { modelPortfolio := none }) [] (flatPrice 0) 0 =
      calculateDrift none [] (flatPrice 0) 0 := rfl

/-! ### Drift entries and trades range over the model's assets (C8) -/

/-- C8: every drift entry, and every proposed rebalancing trade, carries a
symbol listed in the portfolio's assigned model: both are generated by
mapping over the model's assets, so a holding absent from the model never
produces an entry or a trade. -/
theorem drift_trades_symbols_from_model (p : Portfolio) (m : ModelPortfolio)
    (txs : List Transaction) (price : String → String → ℤ → ℚ) (today : ℤ)
    (entries : List AssetAllocation) (hm : p.modelPortfolio = some m)
    (hok : calculateDrift (some p) txs price today = Except.ok entries) :
    (∀ e ∈ entries, e.symbol ∈ m.assets.map (fun ma => ma.symbol)) ∧
      ∀ pid prop,
        generateRebalancingProposal pid (some p) txs price today = Except.ok prop →
        ∀ tr ∈ prop.rebalancingTrades, tr.symbol ∈ m.assets.map (fun ma => ma.symbol) := by
  have hok0 := hok
  simp only [calculateDrift, hm, Except.ok.injEq] at hok
  have hsub : ∀ e ∈ entries, e.symbol ∈ m.assets.map (fun ma => ma.symbol) := by
    intro e he
    rw [← hok] at he
    obtain ⟨ma, hma, hfe⟩ := List.mem_map.mp he
    refine List.mem_map.mpr ⟨ma, hma, ?_⟩
    rw [← hfe]
  refine ⟨hsub, ?_⟩
  intro pid prop hprop tr htr
  unfold generateRebalancingProposal at hprop
  rw [hok0] at hprop
  dsimp only at hprop
  simp only [Except.ok.injEq] at hprop
  rw [← hprop] at htr
  dsimp only at htr
  have htr2 := (List.mem_filter.mp htr).1
  obtain ⟨e, he, hge⟩ := List.mem_map.mp htr2
  have := hsub e he
  rw [← hge]
  exact this

lemma matchedDrift_eval :
    calculateDrift (some matchedPortfolio) matchedTxs (flatPrice 100) 0 =
      Except.ok matchedEntries := by
  norm_num [calculateDrift, calculatePortfolioMarketValue, calculateHoldings,
    replayTransactions, replayStep, applyCashEffect, applyHoldingEffect, jsTruthy,
    findHolding, updateHolding, calculateNewAverageCost, inDateRange, txDateLe,
    matchedPortfolio, matchedTxs, depositOn0, buyAOn0, flatPrice, matchedEntries,
    List.insertionSort, List.orderedInsert, List.find?,
    (by decide : ("A":String) ≠ "")]

/-- C8 witness: in the matched scenario, every drift entry's symbol and
every proposed trade's symbol is listed in the model. -/
theorem drift_trades_symbols_from_model_witness :
    (∀ e ∈ matchedEntries,
        e.symbol ∈ (([{ symbol := "A", targetPercentage := 1 }] : List ModelAsset).map
          (fun ma => ma.symbol))) ∧
      ∀ pid prop,
        generateRebalancingProposal pid (some matchedPortfolio) matchedTxs (flatPrice 100) 0 =
            Except.ok prop →
        ∀ tr ∈ prop.rebalancingTrades,
          tr.symbol ∈ (([{ symbol := "A", targetPercentage := 1 }] : List ModelAsset).map
            (fun ma => ma.symbol)) :=
  drift_trades_symbols_from_model matchedPortfolio
    { assets := [{ symbol := "A", targetPercentage := 1 }] } matchedTxs (flatPrice 100) 0
    matchedEntries rfl matchedDrift_eval

/-! ### A fully matching portfolio proposes no trades (C7) -/

/-- C7: when the portfolio's current weights (as `calculateDrift` computes
them) all equal the model's target weights and the total market value is
positive, `generateRebalancingProposal` succeeds with an empty trade
list: every tentative trade has value `totalMarketValue·targetWeight −
currentValue = 0`, which the `> 0.01` negligibility filter drops. -/
theorem matching_portfolio_empty_trades (pid : ℤ) (p : Portfolio)
    (txs : List Transaction) (price : String → String → ℤ → ℚ) (today : ℤ)
    (entries : List AssetAllocation)
    (hok : calculateDrift (some p) txs price today = Except.ok entries)
    (htmv : 0 < (calculatePortfolioMarketValue txs price today).1)
    (hw : ∀ e ∈ entries, e.currentWeight = e.targetWeight) :
    ∃ prop,
      generateRebalancingProposal pid (some p) txs price today = Except.ok prop ∧
        prop.rebalancingTrades = [] := by
  rcases hmp : p.modelPortfolio with _ | m
  · simp only [calculateDrift, hmp] at hok
    exact absurd hok (by simp)
  · have hok0 := hok
    simp only [calculateDrift, hmp, Except.ok.injEq] at hok
    have hval : ∀ e ∈ entries,
        e.currentValue = e.targetWeight * (calculatePortfolioMarketValue txs price today).1 := by
      intro e he
      have hwe := hw e he
      rw [← hok] at he
      obtain ⟨ma, hma, hfe⟩ := List.mem_map.mp he
      subst hfe
      dsimp only at hwe ⊢
      rw [if_pos htmv] at hwe
      exact (div_eq_iff (ne_of_gt htmv)).mp hwe
    unfold generateRebalancingProposal
    rw [hok0]
    dsimp only
    refine ⟨_, rfl, ?_⟩
    dsimp only
    rw [List.filter_eq_nil_iff]
    intro tr htr
    obtain ⟨e, he, hge⟩ := List.mem_map.mp htr
    rw [← hge]
    dsimp only
    rw [hval e he]
    have hz : (calculatePortfolioMarketValue txs price today).1 * e.targetWeight -
        e.targetWeight * (calculatePortfolioMarketValue txs price today).1 = 0 := by ring
    rw [hz]
    norm_num

lemma matchedMarketValue_pos :
    0 < (calculatePortfolioMarketValue matchedTxs (flatPrice 100) 0).1 := by
  norm_num [calculatePortfolioMarketValue, calculateHoldings, replayTransactions,
    replayStep, applyCashEffect, applyHoldingEffect, jsTruthy, findHolding,
    updateHolding, calculateNewAverageCost, inDateRange, txDateLe, matchedTxs,
    depositOn0, buyAOn0, flatPrice, List.insertionSort, List.orderedInsert,
    (by decide : ("A":String) ≠ "")]

/-- C7 witness: the matched scenario (100 cash deposited, 100 invested in
`"A"` against a 100% `"A"` model at flat price 100) proposes no trades. -/
theorem matching_portfolio_empty_trades_witness :
    ∃ prop,
      generateRebalancingProposal 1 (some matchedPortfolio) matchedTxs (flatPrice 100) 0 =
          Except.ok prop ∧
        prop.rebalancingTrades = [] :=
  matching_portfolio_empty_trades 1 matchedPortfolio matchedTxs (flatPrice 100) 0
    matchedEntries matchedDrift_eval matchedMarketValue_pos
    (by intro e he; simp [matchedEntries] at he; rw [he])

/-! ### BUY-only replay keeps the weighted-mean cost basis (C3) -/

lemma sum_fst_pos (buys : List (ℚ × ℚ)) (hpos : ∀ pr ∈ buys, 0 < pr.1)
    (hne : buys ≠ []) : 0 < (buys.map Prod.fst).sum := by
  apply List.sum_pos
  · intro q hq
    obtain ⟨pr, hpr, rfl⟩ := List.mem_map.mp hq
    exact hpos pr hpr
  · simpa using hne

lemma replay_buys_holdings (sym at_ : String) (hsym : sym ≠ "") (d : ℤ)
    (buys : List (ℚ × ℚ)) (hpos : ∀ pr ∈ buys, 0 < pr.1) (hne : buys ≠ []) :
    (replayTransactions (buys.map (fun pr => mkBuy sym at_ pr.1 pr.2 d))).holdings =
      [{ symbol := sym, assetType := at_,
         quantity := (buys.map Prod.fst).sum,
         averageCost := (buys.map (fun pr => pr.1 * pr.2)).sum / (buys.map Prod.fst).sum,
         totalCost := (buys.map Prod.fst).sum *
           ((buys.map (fun pr => pr.1 * pr.2)).sum / (buys.map Prod.fst).sum) }] := by
  induction buys using List.reverseRecOn with
  | nil => exact absurd rfl hne
  | append_singleton l x ih =>
      rcases eq_or_ne l [] with hl | hl
      · subst hl
        have hx : (0:ℚ) < x.1 := hpos x (by simp)
        simp only [List.nil_append, List.map_cons, List.map_nil, replayTransactions,
          List.foldl_cons, List.foldl_nil, replayStep, applyHoldingEffect, mkBuy,
          jsTruthy, findHolding, List.find?_nil]
        rw [if_pos (by simpa using hsym)]
        simp only [Option.getD_some, List.nil_append, List.sum_cons, List.sum_nil,
          List.cons.injEq, and_true, Holding.mk.injEq, true_and]
        constructor
        · rw [add_zero]
        constructor
        · rw [add_zero, add_zero]
          field_simp
        · rw [add_zero, add_zero]
          field_simp
      · have hposl : ∀ pr ∈ l, 0 < pr.1 := fun pr hpr => hpos pr (by simp [hpr])
        have hQ : 0 < (l.map Prod.fst).sum := sum_fst_pos l hposl hl
        have hx : (0:ℚ) < x.1 := hpos x (by simp)
        have ihh := ih hposl hl
        unfold replayTransactions at ihh
        rw [List.map_append, replayTransactions, List.foldl_append, List.map_cons,
          List.map_nil, List.foldl_cons, List.foldl_nil, replayStep]
        generalize hst :
          (List.foldl replayStep { holdings := [], cashBalance := 0, warnings := [] }
            (l.map (fun pr => mkBuy sym at_ pr.1 pr.2 d))) = st at ihh ⊢
        rcases st with ⟨hs, cb, ws⟩
        dsimp only at ihh
        subst ihh
        simp only [applyHoldingEffect, mkBuy, jsTruthy]
        rw [if_pos (by simpa using hsym)]
        dsimp only [Option.getD_some]
        simp only [findHolding]
        rw [List.find?_cons_of_pos _ (by simp)]
        dsimp only
        simp only [updateHolding, List.map_cons, List.map_nil]
        rw [if_pos (by simp : (sym == sym) = true)]
        simp only [calculateNewAverageCost]
        rw [if_pos (show (l.map Prod.fst).sum + x.1 > 0 from add_pos hQ hx)]
        simp only [List.map_append, List.sum_append, List.map_cons, List.map_nil,
          List.sum_cons, List.sum_nil, List.cons.injEq, and_true, Holding.mk.injEq,
          true_and]
        have hQ0 : (l.map Prod.fst).sum ≠ 0 := ne_of_gt hQ
        have hS : (l.map Prod.fst).sum *
            ((l.map (fun pr => pr.1 * pr.2)).sum / (l.map Prod.fst).sum) =
            (l.map (fun pr => pr.1 * pr.2)).sum := by
          field_simp
        rw [hS]
        simp

lemma inDateRange_none_filter (txs : List Transaction) :
    txs.filter (inDateRange none) = txs := by
  have h : inDateRange none = fun _ => true := by
    funext t
    rfl
  rw [h, List.filter_true]

lemma insertionSort_const_date (sym at_ : String) (d : ℤ) (buys : List (ℚ × ℚ)) :
    List.insertionSort txDateLe (buys.map (fun pr => mkBuy sym at_ pr.1 pr.2 d)) =
      buys.map (fun pr => mkBuy sym at_ pr.1 pr.2 d) := by
  apply List.Sorted.insertionSort_eq
  rw [List.Sorted, List.pairwise_map]
  induction buys with
  | nil => simp
  | cons b bs ih =>
      rw [List.pairwise_cons]
      exact ⟨fun pr _ => le_refl d, ih⟩

/-- C3: for any nonempty BUY-only transaction sequence on one symbol with
positive quantities (and a total quantity above the output epsilon), the
holding produced by `calculateHoldings` has `averageCost` equal to the
quantity-weighted mean of all purchase prices.  The division in
`calculateNewAverageCost` is guarded: a nonpositive total quantity yields
0 instead of a division by zero. -/
theorem buy_only_weighted_mean (sym at_ : String) (d : ℤ) (buys : List (ℚ × ℚ))
    (hsym : sym ≠ "") (hpos : ∀ pr ∈ buys, 0 < pr.1)
    (hq : 1/1000000 < (buys.map Prod.fst).sum) :
    ∃ h : Holding,
      (calculateHoldings (buys.map (fun pr => mkBuy sym at_ pr.1 pr.2 d)) none).assets = [h] ∧
        h.averageCost =
          (buys.map (fun pr => pr.1 * pr.2)).sum / (buys.map Prod.fst).sum ∧
        h.quantity = (buys.map Prod.fst).sum := by
  have hne : buys ≠ [] := by
    intro hcon
    rw [hcon] at hq
    norm_num at hq
  refine ⟨{ symbol := sym, assetType := at_,
            quantity := (buys.map Prod.fst).sum,
            averageCost := (buys.map (fun pr => pr.1 * pr.2)).sum / (buys.map Prod.fst).sum,
            totalCost := (buys.map Prod.fst).sum *
              ((buys.map (fun pr => pr.1 * pr.2)).sum / (buys.map Prod.fst).sum) },
    ?_, rfl, rfl⟩
  unfold calculateHoldings
  dsimp only
  rw [inDateRange_none_filter, insertionSort_const_date,
    replay_buys_holdings sym at_ hsym d buys hpos hne]
  rw [List.filter_cons]
  rw [if_pos (by simpa using hq)]
  rfl

/-- C3 witness: buying 1 unit at 10 and then 3 units at 20 yields the
weighted mean cost (10 + 60)/4 on a holding of 4 units. -/
theorem buy_only_weighted_mean_witness :
    ∃ h : Holding,
      (calculateHoldings ([((1:ℚ), (10:ℚ)), (3, 20)].map
          (fun pr => mkBuy "A" "STOCK" pr.1 pr.2 0)) none).assets = [h] ∧
        h.averageCost =
          (([((1:ℚ), (10:ℚ)), (3, 20)].map (fun pr => pr.1 * pr.2)).sum /
            (([((1:ℚ), (10:ℚ)), (3, 20)].map Prod.fst).sum)) ∧
        h.quantity = ([((1:ℚ), (10:ℚ)), (3, 20)].map Prod.fst).sum :=
  buy_only_weighted_mean "A" "STOCK" 0 [(1, 10), (3, 20)] (by decide)
    (by intro pr hpr; simp at hpr; rcases hpr with h | h <;> rw [h] <;> norm_num)
    (by norm_num)

/-! ### TWR with no cash flows in range (C1) -/

lemma dedup_pair {a b : ℤ} (h : a ≠ b) : ([a, b] : List ℤ).dedup = [a, b] := by
  rw [List.dedup_cons_of_not_mem (by simpa using h), List.dedup_cons_of_not_mem
    (List.not_mem_nil b), List.dedup_nil]

lemma insertionSort_pair {s e : ℤ} (h : s ≤ e) :
    List.insertionSort (fun a b => a ≤ b) [s, e] = [s, e] := by
  apply List.Sorted.insertionSort_eq
  simp [List.sorted_cons, h]

/-- C1 (amended): if no external cash-flow transaction is dated within
`[startDate, endDate]` and `startDate < endDate`, the chain-linked
`calculateTWR` has a single sub-period whose base value is the market
value at the close of the day BEFORE `startDate`: provided that value is
nonzero the result is `(V(endDate)/V(startDate − 1) − 1) × 100` — not
`V(startDate)` as claimed.  The claimed identity with `V(startDate)`
holds only for the simplified `calculateTWRSimple` implementation, when
`V(startDate) ≠ 0` (second conjunct). -/
theorem twr_no_flows_identity (txs : List Transaction)
    (price : String → String → ℤ → ℚ) (startDate endDate : ℤ)
    (hse : startDate < endDate)
    (hflows : txs.filter (isExternalFlowIn startDate endDate) = [])
    (hV : getPortfolioValueOnDate txs price (startDate - 1) ≠ 0) :
    calculateTWR txs price startDate endDate =
        (getPortfolioValueOnDate txs price endDate /
          getPortfolioValueOnDate txs price (startDate - 1) - 1) * 100 ∧
      (getPortfolioValueOnDate txs price startDate ≠ 0 →
        calculateTWRSimple txs price startDate endDate =
          (getPortfolioValueOnDate txs price endDate /
            getPortfolioValueOnDate txs price startDate - 1) * 100) := by
  constructor
  · unfold calculateTWR
    rw [hflows]
    simp only [List.insertionSort, List.map_nil, List.nil_append, List.cons_append,
      List.nil_append]
    rw [dedup_pair (ne_of_lt hse), insertionSort_pair (le_of_lt hse)]
    rw [if_neg (by norm_num)]
    simp only [List.tail_cons, List.zip_cons_cons, List.zip_nil_right,
      List.foldl_cons, List.foldl_nil]
    unfold twrStep
    simp only [List.filter_nil, List.map_nil, List.sum_nil, add_zero]
    rw [if_neg hV, one_mul]
  · intro hVs
    unfold calculateTWRSimple
    have hfl : txs.filter (fun t =>
        decide (startDate < t.transactionDate) && decide (t.transactionDate ≤ endDate)
          && (t.type == TransactionType.CASH_DEPOSIT
              || t.type == TransactionType.CASH_WITHDRAWAL)) = [] := by
      rw [List.filter_eq_nil_iff]
      intro t ht hcon
      have h0 := List.filter_eq_nil_iff.mp hflows t ht
      apply h0
      unfold isExternalFlowIn
      simp only [Bool.and_eq_true, decide_eq_true_eq, Bool.or_eq_true, beq_iff_eq]
        at hcon
      obtain ⟨⟨h1, h2⟩, h3⟩ := hcon
      simp only [Bool.and_eq_true, decide_eq_true_eq]
      refine ⟨⟨le_of_lt h1, h2⟩, ?_⟩
      rcases h3 with h3 | h3 <;> rw [h3] <;> rfl
    rw [hfl]
    simp only [List.map_nil, List.sum_nil]
    rw [if_neg hVs]
    field_simp
    try ring

/-- C1 counterexample: over `[2, 3]` with no cash flows in range, the
chain-linked `calculateTWR` returns 10 (measuring against `V(1) = 100`),
while the claimed `(V(3)/V(2) − 1) × 100` is 0; the claimed identity
fails on the chain-linked implementation. -/
theorem twr_uses_day_before_start :
    calculateTWR exTxs exPrice 2 3 ≠
      (getPortfolioValueOnDate exTxs exPrice 3 /
        getPortfolioValueOnDate exTxs exPrice 2 - 1) * 100 := by
  norm_num [calculateTWR, twrStep, getPortfolioValueOnDate, calculateHoldings,
    replayTransactions, replayStep, applyCashEffect, applyHoldingEffect, jsTruthy,
    findHolding, updateHolding, calculateNewAverageCost, inDateRange, txDateLe,
    isExternalFlowIn, isExternalCashFlowType, exTxs, exDeposit, exBuy, exPrice,
    List.insertionSort, List.orderedInsert, List.dedup, List.pwFilter,
    (by decide : ("A":String) ≠ "")]

/-- C1 witness for the amended identity, on the same concrete scenario:
the chain-linked TWR equals `(V(3)/V(2−1) − 1) × 100` and the simplified
TWR equals `(V(3)/V(2) − 1) × 100`. -/
theorem twr_no_flows_identity_witness :
    calculateTWR exTxs exPrice 2 3 =
        (getPortfolioValueOnDate exTxs exPrice 3 /
          getPortfolioValueOnDate exTxs exPrice (2 - 1) - 1) * 100 ∧
      (getPortfolioValueOnDate exTxs exPrice 2 ≠ 0 →
        calculateTWRSimple exTxs exPrice 2 3 =
          (getPortfolioValueOnDate exTxs exPrice 3 /
            getPortfolioValueOnDate exTxs exPrice 2 - 1) * 100) :=
  twr_no_flows_identity exTxs exPrice 2 3 (by norm_num)
    (by norm_num [isExternalFlowIn, isExternalCashFlowType, exTxs, exDeposit, exBuy])
    (by norm_num [getPortfolioValueOnDate, calculateHoldings, replayTransactions,
      replayStep, applyCashEffect, applyHoldingEffect, jsTruthy, findHolding,
      inDateRange, txDateLe, exTxs, exDeposit, exBuy, exPrice,
      List.insertionSort, List.orderedInsert])

/-! ### `calculateTWR` never returns NaN or Infinity (C5) -/

/-- C5: in the JavaScript-valued model — where division by zero really
produces `NaN`/`±Infinity` — `calculateTWRjs` returns a finite number on
every input (first conjunct: the zero-adjusted-start skip plus the final
`isFinite` guard make the result total and finite), and any sub-period
whose adjusted starting value is exactly 0 is skipped, leaving the chain
factor unchanged (second conjunct). -/
theorem twr_always_finite_and_skips :
    (∀ (txs : List Transaction) (price : String → String → ℤ → JsNum)
        (startDate endDate : ℤ),
        (calculateTWRjs txs price startDate endDate).isFinite = true) ∧
      ∀ (txs : List Transaction) (price : String → String → ℤ → JsNum)
        (flows : List Transaction) (factor : JsNum) (pr : ℤ × ℤ),
        mvStartAdjustedJs txs price flows pr.1 = JsNum.num 0 →
        twrStepJs txs price flows factor pr = factor := by
  constructor
  · intro txs price startDate endDate
    simp only [calculateTWRjs]
    split
    · rfl
    · split
      · assumption
      · rfl
  · intro txs price flows factor pr h
    unfold twrStepJs
    dsimp only
    rw [h, if_pos rfl]

/-- C5 witness: on the empty ledger the returned TWR is finite, and a
sub-period whose adjusted starting value is 0 (the empty portfolio)
leaves the chain factor at 1. -/
theorem twr_always_finite_and_skips_witness :
    (calculateTWRjs [] flatPriceJs 0 1).isFinite = true ∧
      twrStepJs [] flatPriceJs [] (JsNum.num 1) (0, 1) = JsNum.num 1 :=
  ⟨twr_always_finite_and_skips.1 [] flatPriceJs 0 1,
    twr_always_finite_and_skips.2 [] flatPriceJs [] (JsNum.num 1) (0, 1)
      (by norm_num [mvStartAdjustedJs, getPortfolioValueOnDateJs, calculateHoldings,
        replayTransactions, inDateRange, txDateLe, JsNum.add,
        List.insertionSort])⟩

end Investment

